import Mathlib

/-!
Shallow embedding of `scripts/lib/abc.py` from the MusicTools repository.

Python exceptions are modelled with an explicit error type carried in
`Except`; Python's dynamic attribute errors (access to an attribute that
was never assigned) are modelled as `attributeError`.  Durations are `Nat`
(they arise from single digits, sums of digits, or zeroing), pitch values
are `Int`.
-/

deriving instance DecidableEq for Except

namespace MusicTools

/-- Python exception kinds raised by the code in `abc.py`, with their
message (used to tell distinct `ValueError`s apart). -/
inductive PyErr where
  | valueError (msg : String)
  | attributeError (msg : String)
  | indexError (msg : String)
deriving Repr, DecidableEq

/-- Message of the `ValueError` raised by `AbcFile._propagate_key_signature`. -/
def keySignatureMsg : String := "Key signature must be present and must be C with accidentals"

/-- `class Accidental`: `_value` keeps the raw constructor string (field
`raw` here); `value` is the semitone delta, which the Python constructor
assigns only when the string is exactly one of `_`, `^`, `=` — otherwise
the attribute stays unassigned, modelled by `none`. -/
structure Accidental where
  raw : String
  value : Option Int
deriving Repr, DecidableEq

/-- `Accidental.__init__(self, value)`. -/
def Accidental.ofString (s : String) : Accidental :=
  { raw := s
    value :=
      if s = "_" then some (-1)
      else if s = "^" then some 1
      else if s = "=" then some 0
      else none }

/-- Python's `str.lower()` for the ASCII strings handled here (stated on
the character list so that it evaluates definitionally, unlike
`String.toLower`). -/
def pyLower (s : String) : String := String.mk (s.toList.map Char.toLower)

/-- Python's `str.upper()` for the ASCII strings handled here. -/
def pyUpper (s : String) : String := String.mk (s.toList.map Char.toUpper)

/-- Python's `str.split(" ")` (single-space separator, empty parts kept):
the character-level splitter. -/
def splitSpaceChars : List Char → List (List Char)
  | [] => [[]]
  | c :: rest =>
    if c == ' ' then [] :: splitSpaceChars rest
    else
      match splitSpaceChars rest with
      | [] => [[c]]
      | g :: gs => (c :: g) :: gs

/-- Python's `str.split(" ")`. -/
def pySplitSpace (s : String) : List String := (splitSpaceChars s.toList).map String.mk

/-- Events of the music body: `Rest` (whose inherited `name` is the literal
string `"Rest"`) and `Note` with its `name`, optional `accidental`,
`duration` and the derived pitch `value` stored at construction. -/
inductive MusicObject where
  | rest (duration : Nat)
  | note (name : String) (accidental : Option Accidental) (duration : Nat) (value : Int)
deriving Repr, DecidableEq

/-- `MusicObject.name`: the `Rest` subclass passes the literal name `"Rest"`
to the base constructor. -/
def MusicObject.name : MusicObject → String
  | .rest _ => "Rest"
  | .note n _ _ _ => n

/-- `duration` attribute of an event. -/
def MusicObject.duration : MusicObject → Nat
  | .rest d => d
  | .note _ _ d _ => d

/-- In-place assignment `obj.duration = d`. -/
def MusicObject.withDuration : MusicObject → Nat → MusicObject
  | .rest _, d => .rest d
  | .note n a _ v, d => .note n a d v

/-- Reading `obj.value`: a `Rest` has no `value` attribute. -/
def MusicObject.valueAttr : MusicObject → Except PyErr Int
  | .rest _ => .error (.attributeError "Rest object has no attribute value")
  | .note _ _ _ v => .ok v

/-- `base_notes` table from `Note._update_value`. -/
def base_notes : List Char :=
  ['C', 'D', 'E', 'F', 'G', 'A', 'B', 'c', 'd', 'e', 'f', 'g', 'a', 'b']

/-- `base_values` table from `Note._update_value`. -/
def base_values : List Int :=
  [40, 42, 44, 45, 47, 49, 51, 52, 54, 56, 57, 59, 61, 63]

/-- `base_values[base_notes.index(n)]`: `.index` raises `ValueError` when the
letter is not in the table. -/
def baseValue (n : Char) : Except PyErr Int :=
  match base_notes.findIdx? (fun x => x == n) with
  | some i => .ok (base_values.getD i 0)
  | none => .error (.valueError "is not in list")

/-- The staff-position loop of `Note._update_value`: for each character of
`name[1:]`, `,` subtracts 12 and `'` adds 12. -/
def octaveAdjust (b : Int) (rest : List Char) : Int :=
  rest.foldl (fun v c => if c == ',' then v - 12 else if c == '\'' then v + 12 else v) b

/-- The accidental step of `Note._update_value`: add `accidental.value` when
an accidental is present (raising `AttributeError` when that attribute was
never assigned by `Accidental.__init__`). -/
def addAccidental (v : Int) : Option Accidental → Except PyErr Int
  | none => .ok v
  | some a =>
    match a.value with
    | some d => .ok (v + d)
    | none => .error (.attributeError "Accidental object has no attribute value")

/-- `Note._update_value`: base value of `name[0]`, octave adjustment over
`name[1:]`, then the accidental's delta. -/
def update_value (name : String) (accidental : Option Accidental) : Except PyErr Int :=
  match name.toList with
  | [] => .error (.indexError "string index out of range")
  | n :: rest =>
    match baseValue n with
    | .error e => .error e
    | .ok b => addAccidental (octaveAdjust b rest) accidental

/-- `Note.set_accidental`: assign the accidental, then recompute the pitch
value from scratch via `_update_value`.  (`Rest` has no such method nor an
`accidental` attribute.) -/
def set_accidental (m : MusicObject) (a : Accidental) : Except PyErr MusicObject :=
  match m with
  | .rest _ => .error (.attributeError "Rest object has no attribute set_accidental")
  | .note nm _ dur _ =>
    (update_value nm (some a)).map (fun v => .note nm (some a) dur v)

/-- `int(s)` on the strings produced by the tokenizer (a nonempty run of
ASCII digits); anything else raises `ValueError`. -/
def pyInt (s : String) : Except PyErr Nat :=
  if s.toList ≠ [] ∧ s.toList.all Char.isDigit then
    .ok (s.toList.foldl (fun n c => n * 10 + (c.toNat - 48)) 0)
  else
    .error (.valueError "invalid literal for int")

/-- `MusicObject.__init__`: empty duration string defaults to 1, otherwise
`int(duration)`. -/
def musicDuration (duration : String) : Except PyErr Nat :=
  if duration == "" then .ok 1 else pyInt duration

/-- `Rest.__init__`. -/
def RestInit (duration : String) : Except PyErr MusicObject :=
  (musicDuration duration).map .rest

/-- `Note.__init__`: the base constructor parses the duration, then
`_update_value` computes the pitch value. -/
def NoteInit (name : String) (accidental : Option Accidental) (duration : String) :
    Except PyErr MusicObject :=
  match musicDuration duration with
  | .error e => .error e
  | .ok d =>
    match update_value name accidental with
    | .error e => .error e
    | .ok v => .ok (.note name accidental d v)

/-- `Note.__eq__`: compares the `value` attributes only. -/
def note_eq (a b : MusicObject) : Except PyErr Bool :=
  match a.valueAttr with
  | .error e => .error e
  | .ok va =>
    match b.valueAttr with
    | .error e => .error e
    | .ok vb => .ok (va == vb)

/-- `Note.__lt__`: compares the `value` attributes only. -/
def note_lt (a b : MusicObject) : Except PyErr Bool :=
  match a.valueAttr with
  | .error e => .error e
  | .ok va =>
    match b.valueAttr with
    | .error e => .error e
    | .ok vb => .ok (decide (va < vb))

/-! ### `strip_decorators` -/

/-- Character class kept by `re.sub("[^a-zA-Z0-9\s\/\-\^_,'=\[\]]", "", _)`
(`\s` is `[ \t\n\r\f\v]` for ASCII input). -/
def keepChar (c : Char) : Bool :=
  c.isAlpha || c.isDigit ||
  c == ' ' || c == '\t' || c == '\n' || c == '\r' || c == '\x0b' || c == '\x0c' ||
  c == '/' || c == '-' || c == '^' || c == '_' || c == ',' || c == '\'' ||
  c == '=' || c == '[' || c == ']'

/-- `re.sub(" +", " ", _)`: collapse each run of spaces to a single space. -/
def collapseSpaces : List Char → List Char
  | [] => []
  | [c] => [c]
  | c1 :: c2 :: rest =>
    if c1 == ' ' && c2 == ' ' then collapseSpaces (c2 :: rest)
    else c1 :: collapseSpaces (c2 :: rest)

/-- `content.replace("- ", "-")`: left-to-right, non-overlapping, the
replacement text is not rescanned. -/
def replaceDashSpace : List Char → List Char
  | '-' :: ' ' :: rest => '-' :: replaceDashSpace rest
  | c :: rest => c :: replaceDashSpace rest
  | [] => []

/-- `strip_decorators(content)`: drop non-notation characters, normalize
spaces, and join ties onto whatever follows (`"- " → "-"`). -/
def strip_decorators (content : String) : String :=
  let content := String.mk (content.toList.filter keepChar)
  let content := String.mk (collapseSpaces content.toList)
  String.mk (replaceDashSpace content.toList)

/-! ### Event tokenizer

The body is scanned by `re.finditer` with the verbose pattern
`(\[?)([\^=_]*?)([a-zA-Z][,']?)([0-9]?)(\]?)(-?)`; at each position the
scanner emits a token when the pattern matches there and otherwise skips
one character. -/

/-- One raw match of the event pattern, with its named groups. -/
structure RawToken where
  chord_start : Bool
  accidentals : String
  name : String
  duration : String
  chord_end : Bool
  tie : Bool
deriving Repr, DecidableEq

/-- Accidental marks `[\^=_]`. -/
def isAccMark (c : Char) : Bool := c == '^' || c == '=' || c == '_'

/-- Try to match the event pattern at the head of `cs`; return the token
and the remaining characters.  An optional `[`, then a (lazy, hence
exactly the maximal since marks and letters are disjoint) run of accidental
marks, then one mandatory letter; everything after the letter is optional
and greedy.  When no letter follows the accidental run the whole attempt
fails (backtracking over `\[?` cannot help because `[` is not a letter). -/
def matchToken (cs : List Char) : Option (RawToken × List Char) :=
  let (cstart, cs1) :=
    match cs with
    | '[' :: rest => (true, rest)
    | _ => (false, cs)
  let accs := cs1.takeWhile isAccMark
  let cs2 := cs1.dropWhile isAccMark
  match cs2 with
  | [] => none
  | c :: cs3 =>
    if c.isAlpha then
      let (oct, cs4) :=
        match cs3 with
        | o :: rest => if o == ',' || o == '\'' then (String.mk [o], rest) else ("", cs3)
        | [] => ("", cs3)
      let (dur, cs5) :=
        match cs4 with
        | d :: rest => if d.isDigit then (String.mk [d], rest) else ("", cs4)
        | [] => ("", cs4)
      let (cend, cs6) :=
        match cs5 with
        | ']' :: rest => (true, rest)
        | _ => (false, cs5)
      let (tie, cs7) :=
        match cs6 with
        | '-' :: rest => (true, rest)
        | _ => (false, cs6)
      some ({ chord_start := cstart, accidentals := String.mk accs,
              name := String.mk [c] ++ oct, duration := dur,
              chord_end := cend, tie := tie }, cs7)
    else none

/-- Global left-to-right scan of `re.finditer`: emit a token where the
pattern matches, otherwise advance one character.  `fuel` bounds the
recursion; every successful match consumes at least the letter, so
`fuel = cs.length` never runs out before the input does. -/
def tokenizeAux (fuel : Nat) (cs : List Char) : List RawToken :=
  match fuel with
  | 0 => []
  | fuel + 1 =>
    match cs with
    | [] => []
    | c :: cs' =>
      match matchToken (c :: cs') with
      | some (t, rest) => t :: tokenizeAux fuel rest
      | none => tokenizeAux fuel cs'

/-- Tokenize a (already stripped) body string. -/
def tokenize (s : String) : List RawToken :=
  tokenizeAux s.toList.length s.toList

/-! ### Tie/chord state machine (the loop body of `ParseAbcFile`) -/

/-- Build the event for one token: a multi-character or singleton
accidental group becomes an `Accidental` object (empty group → `None`);
a name whose lowercase form is `z` or `x` becomes a `Rest`, anything else
a `Note`. -/
def mkEvent (t : RawToken) : Except PyErr MusicObject :=
  if pyLower t.name == "z" || pyLower t.name == "x" then
    RestInit t.duration
  else
    NoteInit t.name
      (if t.accidentals.length > 0 then some (Accidental.ofString t.accidentals) else none)
      t.duration

/-- Tie resolution on the list with the new event already appended:
`music[-2]` gains `music[-1]`'s duration and `music[-1]` is dropped when
the two names are equal; fewer than two events would raise `IndexError`. -/
def tieResolve (music : List MusicObject) : Except PyErr (List MusicObject) :=
  match music.getLast?, music.dropLast.getLast? with
  | some last, some prev =>
    if prev.name == last.name then
      .ok (music.dropLast.dropLast ++ [prev.withDuration (prev.duration + last.duration)])
    else
      .ok music
  | _, _ => .error (.indexError "list index out of range")

/-- `music[-1].duration = 0`. -/
def zeroLast (music : List MusicObject) : Except PyErr (List MusicObject) :=
  match music.getLast? with
  | some last => .ok (music.dropLast ++ [last.withDuration 0])
  | none => .error (.indexError "list index out of range")

/-- One iteration of the parse loop: append the event, resolve a pending
tie, re-arm `detect_tie` from the token, then apply chord folding and
update `detect_chord`.  Returns the new `(music, detect_tie, detect_chord)`. -/
def processEvent (music : List MusicObject) (detect_tie detect_chord : Bool)
    (t : RawToken) : Except PyErr (List MusicObject × Bool × Bool) :=
  match mkEvent t with
  | .error e => .error e
  | .ok ev =>
    match (if detect_tie then tieResolve (music ++ [ev]) else .ok (music ++ [ev])) with
    | .error e => .error e
    | .ok music2 =>
      if detect_chord then
        match zeroLast music2 with
        | .error e => .error e
        | .ok music3 => .ok (music3, t.tie, !t.chord_end)
      else
        .ok (music2, t.tie, t.chord_start)

/-- Run the parse loop over all tokens. -/
def runFold : List RawToken → List MusicObject → Bool → Bool →
    Except PyErr (List MusicObject)
  | [], music, _, _ => .ok music
  | t :: ts, music, detect_tie, detect_chord =>
    match processEvent music detect_tie detect_chord t with
    | .error e => .error e
    | .ok (music', tie', chord') => runFold ts music' tie' chord'

/-- The body-parsing part of `ParseAbcFile`: strip decorators, tokenize,
and fold the token stream through the tie/chord state machine. -/
def parseMusicContent (content : String) : Except PyErr (List MusicObject) :=
  runFold (tokenize (strip_decorators content)) [] false false

/-! ### Information fields and the header -/

/-- A Python value stored in `InformationField.value`: `ParseAbcFile`
stores `match.groups(2)` — the *pair* of both captured groups — while a
plain string would be what `match.group(2)` returns. -/
inductive PyValue where
  | str (s : String)
  | pair (a b : String)
deriving Repr, DecidableEq

/-- `class InformationField` (`self.name`, `self.value`). -/
structure InformationField where
  name : String
  value : PyValue
deriving Repr, DecidableEq

/-- `value[1]` as used by `_propagate_key_signature`: on the pair stored by
the parser it is the second group; on a plain string it would be the
character at index 1 (or `IndexError`). -/
def pyIndex1 : PyValue → Except PyErr String
  | .pair _ b => .ok b
  | .str s =>
    match s.toList with
    | _ :: c :: _ => .ok (String.mk [c])
    | _ => .error (.indexError "string index out of range")

/-- `re.compile("([A-Za-z]):(.*)").match(line)`: one letter, a colon, and
the rest of the line up to (not including) a newline.  Returns the two
captured groups. -/
def matchInformationField (line : String) : Option (String × String) :=
  match line.toList with
  | c :: ':' :: rest =>
    if c.isAlpha then some (String.mk [c], String.mk (rest.takeWhile (fun x => x != '\n')))
    else none
  | _ => none

/-- `InformationField(m.group(1).upper(), m.groups(2))`: the stored name is
the uppercased letter, the stored value is the *pair* of groups (the letter
exactly as matched, and the trailing string). -/
def mkInformationField (line : String) : Option InformationField :=
  (matchInformationField line).map (fun g => ⟨pyUpper g.1, PyValue.pair g.1 g.2⟩)

/-- Header validation from `ParseAbcFile`: fewer than three fields, a first
field other than `X` or second other than `T`, or a last field other than
`K`, each raise a `ValueError` naming the violated rule. -/
def validateHeader (fields : List InformationField) : Except PyErr Unit :=
  match fields with
  | f0 :: f1 :: f2 :: rest =>
    if f0.name != "X" || f1.name != "T" then
      .error (.valueError "Tune header must begin with X: followed by T:")
    else if (rest.getLastD f2).name != "K" then
      .error (.valueError "Tune header must end with K:")
    else
      .ok ()
  | _ => .error (.valueError "Tune header must contain at least X:, T:, and K:")

/-! ### Key-signature propagation and `AbcFile` -/

/-- Body of the inner loop of `_propagate_key_signature` for one event:
when `n.name.lower() == note` and `n.accidental is None` the accidental is
set (recomputing the value); a `Rest` whose lowered name matched would hit
the missing `accidental` attribute. -/
def propagateNote (mark note : String) (m : MusicObject) : Except PyErr MusicObject :=
  match m with
  | .rest d =>
    if "rest" == note then .error (.attributeError "Rest object has no attribute accidental")
    else .ok (.rest d)
  | .note nm acc dur v =>
    if pyLower nm == note && acc.isNone then
      set_accidental (.note nm acc dur v) (Accidental.ofString mark)
    else
      .ok (.note nm acc dur v)

/-- `for n in self.music: ...` for one accidental token, in order. -/
def propagateList (mark note : String) : List MusicObject → Except PyErr (List MusicObject)
  | [] => .ok []
  | m :: ms =>
    match propagateNote mark note m with
    | .error e => .error e
    | .ok m' =>
      match propagateList mark note ms with
      | .error e => .error e
      | .ok ms' => .ok (m' :: ms')

/-- One accidental token `a` of the `K` value: tokens whose length is not 2
are skipped (`continue`); otherwise `mark = a[0]` and `note = a[1].lower()`
are applied to every event. -/
def applyAccidentalToken (a : String) (music : List MusicObject) :
    Except PyErr (List MusicObject) :=
  if a.length ≠ 2 then .ok music
  else
    match a.toList with
    | [m, c] => propagateList (String.mk [m]) (pyLower (String.mk [c])) music
    | _ => .ok music

/-- `for a in accidentals[1:]`, applied sequentially. -/
def applyAccidentals : List String → List MusicObject → Except PyErr (List MusicObject)
  | [], music => .ok music
  | a :: rest, music =>
    match applyAccidentalToken a music with
    | .error e => .error e
    | .ok music' => applyAccidentals rest music'

/-- `AbcFile._propagate_key_signature`: take the first `K` field
(`IndexError` when there is none), extract `value[1]`, require a value that
is nonempty and starts with `C`, split on single spaces, and apply every
token after the first. -/
def propagate_key_signature (fields : List InformationField)
    (music : List MusicObject) : Except PyErr (List MusicObject) :=
  match (fields.filter (fun f => f.name == "K")).head? with
  | none => .error (.indexError "list index out of range")
  | some f =>
    match pyIndex1 f.value with
    | .error e => .error e
    | .ok signature =>
      if signature.length == 0 || signature.toList.head? != some 'C' then
        .error (.valueError keySignatureMsg)
      else
        applyAccidentals ((pySplitSpace signature).drop 1) music

/-- The result of `AbcFile.__init__`. -/
structure AbcFile where
  fields : List InformationField
  music : List MusicObject
deriving Repr, DecidableEq

/-- `AbcFile.__init__`: store the fields and events, then run
`_propagate_key_signature` (which mutates `self.music` in place). -/
def AbcFileInit (fields : List InformationField) (music : List MusicObject) :
    Except PyErr AbcFile :=
  (propagate_key_signature fields music).map (fun m => ⟨fields, m⟩)

/-! ### Shared helper lemmas -/

lemma char_toNat_inj {a b : Char} (h : a.toNat = b.toNat) : a = b :=
  Char.ext (UInt32.ext h)

lemma takeWhile_ne_of_not_mem (c : Char) :
    ∀ (l : List Char), c ∉ l → l.takeWhile (fun x => x != c) = l := by
  intro l hl
  rw [List.takeWhile_eq_self_iff]
  intro x hx
  simp only [bne_iff_ne, ne_eq]
  intro he
  exact hl (he ▸ hx)

/-- The octave-mark fold of `_update_value` only counts `'` and `,`. -/
lemma foldl_octave_marks (tail : List Char) (v : Int) :
    tail.foldl (fun v c => if c == ',' then v - 12 else if c == '\'' then v + 12 else v) v
      = v + 12 * (tail.count '\'' : Int) - 12 * (tail.count ',' : Int) := by
  induction tail generalizing v with
  | nil => simp
  | cons c cs ih =>
    rw [List.foldl_cons, ih, List.count_cons, List.count_cons]
    by_cases h1 : c = ','
    · subst h1
      have h3 : (',' == ',') = true := by decide
      have h4 : (',' == '\'') = false := by decide
      rw [h3, h4]
      simp only [if_true, if_false, Bool.false_eq_true, reduceIte]
      push_cast
      ring
    · by_cases h2 : c = '\''
      · subst h2
        have h3 : ('\'' == ',') = false := by decide
        have h4 : ('\'' == '\'') = true := by decide
        rw [h3, h4]
        simp only [if_true, if_false, Bool.false_eq_true, reduceIte]
        push_cast
        ring
      · have h3 : (c == ',') = false := by simp [h1]
        have h4 : (c == '\'') = false := by simp [h2]
        rw [h3, h4]
        simp only [if_false, Bool.false_eq_true, reduceIte]
        push_cast
        ring

lemma zeroLast_length {l l' : List MusicObject} (h : zeroLast l = .ok l') :
    l'.length = l.length := by
  unfold zeroLast at h
  cases hl : l.getLast? with
  | none => rw [hl] at h; exact absurd h (by simp)
  | some last =>
    rw [hl] at h
    injection h with h
    have hne : l ≠ [] := by
      intro he
      rw [he] at hl
      simp at hl
    subst h
    rw [List.length_append, List.length_dropLast]
    have := List.length_pos.mpr hne
    simp
    omega

/-- With no pending tie, one parse step appends exactly one event and arms
`detect_tie` from the token. -/
lemma processEvent_noTie {music : List MusicObject} {dc : Bool} {t : RawToken}
    {out : List MusicObject × Bool × Bool}
    (h : processEvent music false dc t = .ok out) :
    out.1.length = music.length + 1 ∧ out.2.1 = t.tie := by
  unfold processEvent at h
  cases he : mkEvent t with
  | error e => rw [he] at h; exact absurd h (by simp)
  | ok ev =>
    rw [he] at h
    simp only [if_false, Bool.false_eq_true, reduceIte] at h
    cases hdc : dc with
    | false =>
      rw [hdc] at h
      simp only [Bool.false_eq_true, reduceIte] at h
      injection h with h
      subst h
      simp
    | true =>
      rw [hdc] at h
      simp only [reduceIte] at h
      cases hz : zeroLast (music ++ [ev]) with
      | error e => rw [hz] at h; exact absurd h (by simp)
      | ok music3 =>
        rw [hz] at h
        injection h with h
        subst h
        have := zeroLast_length hz
        simp only [List.length_append, List.length_singleton] at this
        exact ⟨this, rfl⟩

/-- With no tie markers anywhere, the parse loop appends one event per
token: chord folding never changes the sequence length. -/
lemma runFold_noTie :
    ∀ (ts : List RawToken) (music : List MusicObject) (dc : Bool)
      (res : List MusicObject),
      (∀ t ∈ ts, t.tie = false) → runFold ts music false dc = .ok res →
      res.length = music.length + ts.length := by
  intro ts
  induction ts with
  | nil =>
    intro music dc res _ h
    unfold runFold at h
    injection h with h
    subst h
    simp
  | cons t ts ih =>
    intro music dc res hties h
    unfold runFold at h
    cases hp : processEvent music false dc t with
    | error e => rw [hp] at h; exact absurd h (by simp)
    | ok out =>
      rw [hp] at h
      obtain ⟨hlen, htie⟩ := processEvent_noTie hp
      have ht : t.tie = false := hties t (by simp)
      rw [ht] at htie
      obtain ⟨music', tie', chord'⟩ := out
      simp only at htie hlen
      subst htie
      have := ih music' chord' res (fun u hu => hties u (by simp [hu])) h
      rw [this, hlen]
      simp
      omega

lemma except_map_eq_error {α β : Type} (f : α → β) (x : Except PyErr α) (e : PyErr) :
    x.map f = .error e ↔ x = .error e := by
  cases x <;> simp [Except.map]

/-! Unfolding equations (all definitional). -/

lemma update_value_nil (nm : String) (acc : Option Accidental) (h : nm.toList = []) :
    update_value nm acc = .error (.indexError "string index out of range") := by
  unfold update_value
  rw [h]

lemma update_value_cons (nm : String) (acc : Option Accidental) (n : Char)
    (rest : List Char) (h : nm.toList = n :: rest) :
    update_value nm acc
      = match baseValue n with
        | .error e => .error e
        | .ok b => addAccidental (octaveAdjust b rest) acc := by
  unfold update_value
  rw [h]

lemma propagateNote_rest (mark note : String) (d : Nat) :
    propagateNote mark note (.rest d)
      = if "rest" == note then
          .error (.attributeError "Rest object has no attribute accidental")
        else .ok (.rest d) := rfl

lemma propagateNote_note (mark note nm : String) (acc : Option Accidental)
    (dur : Nat) (v : Int) :
    propagateNote mark note (.note nm acc dur v)
      = if pyLower nm == note && acc.isNone then
          set_accidental (.note nm acc dur v) (Accidental.ofString mark)
        else .ok (.note nm acc dur v) := rfl

lemma propagateList_cons (mark note : String) (m : MusicObject) (ms : List MusicObject) :
    propagateList mark note (m :: ms)
      = match propagateNote mark note m with
        | .error e => .error e
        | .ok m' =>
          match propagateList mark note ms with
          | .error e => .error e
          | .ok ms' => .ok (m' :: ms') := rfl

lemma applyAccidentals_cons (a : String) (rest : List String) (ms : List MusicObject) :
    applyAccidentals (a :: rest) ms
      = match applyAccidentalToken a ms with
        | .error e => .error e
        | .ok ms' => applyAccidentals rest ms' := rfl

/-- `_update_value` can raise `IndexError`, the `ValueError` of `.index`, or
an `AttributeError`, but never the key-signature `ValueError`. -/
lemma baseValue_ne_keyErr (n : Char) :
    baseValue n ≠ Except.error (.valueError keySignatureMsg) := by
  intro h
  unfold baseValue at h
  cases hf : base_notes.findIdx? (fun x => x == n) with
  | some i => rw [hf] at h; simp at h
  | none => rw [hf] at h; simp [keySignatureMsg] at h

lemma update_value_ne_keyErr (nm : String) (acc : Option Accidental) :
    update_value nm acc ≠ Except.error (.valueError keySignatureMsg) := by
  intro h
  cases hl : nm.toList with
  | nil =>
    rw [update_value_nil nm acc hl] at h
    simp [keySignatureMsg] at h
  | cons n rest =>
    rw [update_value_cons nm acc n rest hl] at h
    cases hb : baseValue n with
    | error e =>
      rw [hb] at h
      simp at h
      exact baseValue_ne_keyErr n (by rw [hb, h])
    | ok b =>
      rw [hb] at h
      cases acc with
      | none => simp [addAccidental] at h
      | some a =>
        cases hv : a.value with
        | none => simp [addAccidental, hv, keySignatureMsg] at h
        | some d => simp [addAccidental, hv] at h

lemma set_accidental_ne_keyErr (m : MusicObject) (a : Accidental) :
    set_accidental m a ≠ Except.error (.valueError keySignatureMsg) := by
  intro h
  cases m with
  | rest d => simp [set_accidental, keySignatureMsg] at h
  | note nm acc dur v =>
    unfold set_accidental at h
    rw [except_map_eq_error] at h
    exact update_value_ne_keyErr nm (some a) h

lemma propagateNote_ne_keyErr (mark note : String) (m : MusicObject) :
    propagateNote mark note m ≠ Except.error (.valueError keySignatureMsg) := by
  intro h
  cases m with
  | rest d =>
    rw [propagateNote_rest] at h
    by_cases hr : ("rest" == note) = true
    · rw [if_pos hr] at h
      simp [keySignatureMsg] at h
    · rw [if_neg hr] at h
      exact Except.noConfusion h
  | note nm acc dur v =>
    rw [propagateNote_note] at h
    by_cases hc : (pyLower nm == note && acc.isNone) = true
    · rw [if_pos hc] at h
      exact set_accidental_ne_keyErr _ _ h
    · rw [if_neg hc] at h
      exact Except.noConfusion h

lemma propagateList_ne_keyErr (mark note : String) :
    ∀ ms, propagateList mark note ms ≠ Except.error (.valueError keySignatureMsg) := by
  intro ms
  induction ms with
  | nil => intro h; exact Except.noConfusion h
  | cons m rest ih =>
    intro h
    rw [propagateList_cons] at h
    cases hp : propagateNote mark note m with
    | error e =>
      rw [hp] at h
      simp at h
      exact propagateNote_ne_keyErr mark note m (by rw [hp, h])
    | ok m' =>
      rw [hp] at h
      cases hq : propagateList mark note rest with
      | error e =>
        rw [hq] at h
        simp at h
        exact ih (by rw [hq, h])
      | ok ms' =>
        rw [hq] at h
        simp at h

lemma applyAccidentalToken_ne_keyErr (a : String) (ms : List MusicObject) :
    applyAccidentalToken a ms ≠ Except.error (.valueError keySignatureMsg) := by
  intro h
  unfold applyAccidentalToken at h
  by_cases hl : a.length ≠ 2
  · rw [if_pos hl] at h
    exact Except.noConfusion h
  · rw [if_neg hl] at h
    cases hc : a.toList with
    | nil => rw [hc] at h; simp at h
    | cons m tl =>
      rw [hc] at h
      cases tl with
      | nil => simp at h
      | cons c tl2 =>
        cases tl2 with
        | nil => exact propagateList_ne_keyErr _ _ _ h
        | cons x tl3 => simp at h

lemma applyAccidentals_ne_keyErr :
    ∀ (toks : List String) (ms : List MusicObject),
      applyAccidentals toks ms ≠ Except.error (.valueError keySignatureMsg) := by
  intro toks
  induction toks with
  | nil => intro ms h; exact Except.noConfusion h
  | cons a rest ih =>
    intro ms h
    rw [applyAccidentals_cons] at h
    cases ht : applyAccidentalToken a ms with
    | error e =>
      rw [ht] at h
      simp at h
      exact applyAccidentalToken_ne_keyErr a ms (by rw [ht, h])
    | ok ms' =>
      rw [ht] at h
      exact ih ms' h

/-- `String.mk (c :: l)` is never the empty string. -/
lemma stringMk_cons_ne_empty (c : Char) (l : List Char) :
    (String.mk (c :: l) == "") = false := by
  rw [beq_eq_false_iff_ne]
  intro h
  have hdata := congrArg String.data h
  simp at hdata

lemma musicDuration_empty : musicDuration "" = .ok 1 := rfl

/-- `int(d)` of a single digit character. -/
lemma musicDuration_digit (c : Char) (hc : c.isDigit = true) :
    musicDuration (String.mk [c]) = .ok (c.toNat - 48) := by
  unfold musicDuration pyInt
  rw [stringMk_cons_ne_empty]
  have hl : (String.mk [c]).toList = [c] := rfl
  simp [hl, hc]

lemma NoteInit_durOk (name : String) (acc : Option Accidental) (duration : String)
    (d : Nat) (hm : musicDuration duration = .ok d) :
    NoteInit name acc duration
      = match update_value name acc with
        | .error e => .error e
        | .ok v => .ok (.note name acc d v) := by
  unfold NoteInit
  rw [hm]

/-- A successfully built event's duration comes from `musicDuration` of the
token's duration group. -/
lemma mkEvent_duration {t : RawToken} {ev : MusicObject} (h : mkEvent t = .ok ev) :
    ∃ d, musicDuration t.duration = .ok d ∧ ev.duration = d := by
  unfold mkEvent at h
  by_cases hz : (pyLower t.name == "z" || pyLower t.name == "x") = true
  · rw [if_pos hz] at h
    unfold RestInit at h
    cases hm : musicDuration t.duration with
    | error e => rw [hm] at h; simp [Except.map] at h
    | ok d =>
      rw [hm] at h
      simp only [Except.map] at h
      injection h with h
      exact ⟨d, rfl, by rw [← h]; rfl⟩
  · rw [if_neg hz] at h
    cases hm : musicDuration t.duration with
    | error e =>
      unfold NoteInit at h
      rw [hm] at h
      simp at h
    | ok d =>
      rw [NoteInit_durOk _ _ _ d hm] at h
      cases hu : update_value t.name
          (if t.accidentals.length > 0 then some (Accidental.ofString t.accidentals)
           else none) with
      | error e => rw [hu] at h; simp at h
      | ok v =>
        rw [hu] at h
        simp at h
        exact ⟨d, rfl, by rw [← h]; rfl⟩

/-- Letters present in `base_notes` always have a base value. -/
lemma baseValue_ok_of_mem {c : Char} (h : c ∈ base_notes) :
    ∃ b, baseValue c = .ok b := by
  unfold baseValue
  cases hf : base_notes.findIdx? (fun x => x == c) with
  | some i => exact ⟨_, rfl⟩
  | none =>
    exfalso
    have h2 : base_notes.any (fun x => x == c) = true :=
      List.any_eq_true.mpr ⟨c, h, by simp⟩
    have h3 : (base_notes.findIdx? (fun x => x == c)).isSome = true := by
      rw [List.findIdx?_isSome]
      exact h2
    rw [hf] at h3
    exact Bool.noConfusion h3

lemma processEvent_evOk (music : List MusicObject) (dt dc : Bool) (t : RawToken)
    (ev : MusicObject) (hev : mkEvent t = .ok ev) :
    processEvent music dt dc t
      = match (if dt then tieResolve (music ++ [ev]) else .ok (music ++ [ev])) with
        | .error e => .error e
        | .ok music2 =>
          if dc then
            match zeroLast music2 with
            | .error e => .error e
            | .ok music3 => .ok (music3, t.tie, !t.chord_end)
          else .ok (music2, t.tie, t.chord_start) := by
  unfold processEvent
  rw [hev]

lemma tieResolve_concat (ms : List MusicObject) (prev ev : MusicObject)
    (hlast : ms.getLast? = some prev) :
    tieResolve (ms ++ [ev])
      = if prev.name == ev.name then
          .ok (ms.dropLast ++ [prev.withDuration (prev.duration + ev.duration)])
        else .ok (ms ++ [ev]) := by
  unfold tieResolve
  rw [List.getLast?_concat, List.dropLast_concat, hlast]

/-! ### Claim theorems -/

/-- C2, amended: parsing the body tokens `[C E G]2` yields exactly three
Notes where the **first carries duration 1** — the trailing digit after `]`
is not captured by the token grammar, whose duration group precedes the
chord-end bracket — and the second and third carry duration 0; and chord
folding never changes the length of the event sequence: with no tie
markers the parse loop emits exactly one event per consumed token. -/
theorem c2_chord_folding_amended :
    parseMusicContent "[C E G]2"
      = .ok [.note "C" none 1 40, .note "E" none 0 44, .note "G" none 0 47]
  ∧ (∀ (ts : List RawToken) (music : List MusicObject) (dc : Bool)
       (res : List MusicObject),
       (∀ t ∈ ts, t.tie = false) → runFold ts music false dc = .ok res →
       res.length = music.length + ts.length) :=
  ⟨by decide, runFold_noTie⟩

/-- C2 counterexample: the durations produced for `[C E G]2` are `1, 0, 0`,
not `2, 0, 0` as the claim states. -/
theorem c2_counterexample :
    (parseMusicContent "[C E G]2").map (List.map MusicObject.duration) = .ok [1, 0, 0]
  ∧ (parseMusicContent "[C E G]2").map (List.map MusicObject.duration) ≠ .ok [2, 0, 0] :=
  ⟨by decide, by decide⟩

/-- C2 witness: one tie-free token appended to an empty sequence gives a
sequence of length one. -/
theorem c2_witness :
    runFold [⟨true, "", "C", "", false, false⟩] [] false false = .ok [.note "C" none 1 40]
  ∧ ([MusicObject.note "C" none 1 40] : List MusicObject).length
      = ([] : List MusicObject).length
        + ([⟨true, "", "C", "", false, false⟩] : List RawToken).length :=
  ⟨by decide,
   c2_chord_folding_amended.2 [⟨true, "", "C", "", false, false⟩] [] false
     [.note "C" none 1 40] (by decide) (by decide)⟩

/-- C3: with a pending tie, when the just-appended event's name equals the
previous event's name, the earlier event's duration grows by the later
event's duration and the later event is removed; with different names both
events remain unchanged and no error is raised.  Concretely `C2-C2` parses
to a single Note of duration 4 and `C2-D2` keeps both notes with their
original durations. -/
theorem c3_tie_folding :
    (∀ (ms : List MusicObject) (prev : MusicObject) (t : RawToken) (ev : MusicObject),
       mkEvent t = .ok ev → ms.getLast? = some prev →
       (prev.name = ev.name →
         processEvent ms true false t
           = .ok (ms.dropLast ++ [prev.withDuration (prev.duration + ev.duration)],
                  t.tie, t.chord_start))
     ∧ (prev.name ≠ ev.name →
         processEvent ms true false t = .ok (ms ++ [ev], t.tie, t.chord_start)))
  ∧ parseMusicContent "C2-C2" = .ok [.note "C" none 4 40]
  ∧ parseMusicContent "C2-D2" = .ok [.note "C" none 2 40, .note "D" none 2 42] := by
  refine ⟨fun ms prev t ev hev hlast => ⟨fun hname => ?_, fun hname => ?_⟩,
          by decide, by decide⟩
  · rw [processEvent_evOk ms true false t ev hev]
    rw [tieResolve_concat ms prev ev hlast]
    have hb : (prev.name == ev.name) = true := beq_iff_eq.mpr hname
    rw [hb]
    simp
  · rw [processEvent_evOk ms true false t ev hev]
    rw [tieResolve_concat ms prev ev hlast]
    have hb : (prev.name == ev.name) = false := beq_eq_false_iff_ne.mpr hname
    rw [hb]
    simp

/-- C3 witness: the tie step at a concrete pair of same-named notes merges
them, and at a concrete pair of differently named notes keeps both. -/
theorem c3_witness :
    processEvent [.note "C" none 2 40] true false ⟨false, "", "C", "2", false, false⟩
      = .ok ([.note "C" none 4 40], false, false)
  ∧ processEvent [.note "C" none 2 40] true false ⟨false, "", "D", "2", false, false⟩
      = .ok ([.note "C" none 2 40, .note "D" none 2 42], false, false) := by
  constructor
  · exact (c3_tie_folding.1 [.note "C" none 2 40] (.note "C" none 2 40)
      ⟨false, "", "C", "2", false, false⟩ (.note "C" none 2 40)
      (by decide) (by decide)).1 (by decide)
  · exact (c3_tie_folding.1 [.note "C" none 2 40] (.note "C" none 2 40)
      ⟨false, "", "D", "2", false, false⟩ (.note "D" none 2 42)
      (by decide) (by decide)).2 (by decide)

/-- C7, amended: a token with no duration digit yields duration 1 and a
token with a duration digit yields that digit's numeric value — which is
`0` for the digit `0`, so duration 0 can arise outside chords; for any
nonzero digit the duration is positive. -/
theorem c7_duration_amended (t : RawToken) (ev : MusicObject) (h : mkEvent t = .ok ev) :
    (t.duration = "" → ev.duration = 1)
  ∧ (∀ c : Char, t.duration = String.mk [c] → c.isDigit = true →
       ev.duration = c.toNat - 48)
  ∧ (∀ c : Char, t.duration = String.mk [c] → c.isDigit = true → c ≠ '0' →
       0 < ev.duration) := by
  obtain ⟨d, hd, hdur⟩ := mkEvent_duration h
  refine ⟨?_, ?_, ?_⟩
  · intro he
    rw [he, musicDuration_empty] at hd
    injection hd with hd
    rw [hdur, ← hd]
  · intro c hc hdig
    rw [hc, musicDuration_digit c hdig] at hd
    injection hd with hd
    rw [hdur, ← hd]
  · intro c hc hdig hne
    rw [hc, musicDuration_digit c hdig] at hd
    injection hd with hd
    rw [hdur, ← hd]
    have hbounds : 48 ≤ c.toNat ∧ c.toNat ≤ 57 := by
      simp [Char.isDigit] at hdig
      exact hdig
    have h48 : c.toNat ≠ 48 := by
      intro he
      exact hne (char_toNat_inj (show c.toNat = Char.toNat '0' by rw [he]; rfl))
    omega

/-- C7 counterexample: the non-chord token `C0` produces a Note of
duration 0. -/
theorem c7_counterexample :
    parseMusicContent "C0" = .ok [.note "C" none 0 40] := by decide

/-- C7 witness: a token without a digit gives duration 1; the token digit
`3` gives duration 3. -/
theorem c7_witness :
    (MusicObject.note "C" none 1 40).duration = 1
  ∧ (MusicObject.note "C" none 3 40).duration = Char.toNat '3' - 48 := by
  constructor
  · exact (c7_duration_amended ⟨false, "", "C", "", false, false⟩
      (.note "C" none 1 40) (by decide)).1 rfl
  · exact (c7_duration_amended ⟨false, "", "C", "3", false, false⟩
      (.note "C" none 3 40) (by decide)).2.1 '3' rfl rfl

/-- C4: the pitch value of a Note is the base value of its first letter
from the fixed 14-entry table, plus 12 per `'` and minus 12 per `,` in the
name's tail, plus the accidental's semitone delta (−1 for `_`, 0 for `=`,
+1 for `^`) when present and 0 otherwise; and `set_accidental` recomputes
the value from scratch via `_update_value`, independently of the previously
stored value, so recomputation never double-applies any component. -/
theorem c4_pitch_value :
    base_notes.map baseValue = base_values.map Except.ok
  ∧ (∀ (nm : String) (c : Char) (tail : List Char) (b : Int),
       nm.toList = c :: tail → baseValue c = .ok b →
       update_value nm none
         = .ok (b + 12 * (tail.count '\'' : Int) - 12 * (tail.count ',' : Int)))
  ∧ (∀ (nm : String) (c : Char) (tail : List Char) (b : Int) (a : Accidental) (d : Int),
       nm.toList = c :: tail → baseValue c = .ok b → a.value = some d →
       update_value nm (some a)
         = .ok (b + 12 * (tail.count '\'' : Int) - 12 * (tail.count ',' : Int) + d))
  ∧ ((Accidental.ofString "_").value = some (-1)
     ∧ (Accidental.ofString "=").value = some 0
     ∧ (Accidental.ofString "^").value = some 1)
  ∧ (∀ (nm : String) (acc0 : Option Accidental) (dur : Nat) (v0 : Int) (a : Accidental),
       set_accidental (.note nm acc0 dur v0) a
         = (update_value nm (some a)).map (fun v => .note nm (some a) dur v)) := by
  refine ⟨by decide, ?_, ?_, by decide, fun nm acc0 dur v0 a => rfl⟩
  · intro nm c tail b hnm hb
    rw [update_value_cons nm none c tail hnm, hb]
    show Except.ok (octaveAdjust b tail) = _
    unfold octaveAdjust
    rw [foldl_octave_marks]
  · intro nm c tail b a d hnm hb hv
    rw [update_value_cons nm (some a) c tail hnm, hb]
    show (match a.value with
          | some d => Except.ok (octaveAdjust b tail + d)
          | none =>
            Except.error (PyErr.attributeError "Accidental object has no attribute value")) = _
    rw [hv]
    show Except.ok (octaveAdjust b tail + d) = _
    unfold octaveAdjust
    rw [foldl_octave_marks]

/-- C4 witness: `C,` with a sharp evaluates to `40 − 12 + 1 = 29`. -/
theorem c4_witness :
    update_value "C," (some (Accidental.ofString "^")) = .ok 29 := by
  have h := c4_pitch_value.2.2.1 "C," 'C' [','] 40 (Accidental.ofString "^") 1
    rfl (by decide) rfl
  have h2 : (40 + 12 * (([','] : List Char).count '\'' : Int)
      - 12 * (([','] : List Char).count ',' : Int) + 1) = 29 := by decide
  rw [h2] at h
  exact h

/-- C5, amended: for a header whose `K` field stores the regex groups
`(k, s)`, document construction raises the key-signature `ValueError` iff
the value `s` does not start with the letter `C` (the empty value
included); any value whose first character is `C` — such as `Cm` — passes
the check, no further validation of the accidental-list form being done. -/
theorem c5_keysignature_amended (k s : String) (music : List MusicObject) :
    AbcFileInit [⟨"K", PyValue.pair k s⟩] music
        = .error (.valueError keySignatureMsg)
      ↔ s.toList.head? ≠ some 'C' := by
  have hstep : AbcFileInit [⟨"K", PyValue.pair k s⟩] music
      = (if s.length == 0 || s.toList.head? != some 'C' then
           Except.error (.valueError keySignatureMsg)
         else applyAccidentals ((pySplitSpace s).drop 1) music).map
           (fun m => (⟨[⟨"K", PyValue.pair k s⟩], m⟩ : AbcFile)) := rfl
  rw [hstep]
  by_cases hc : s.toList.head? = some 'C'
  · have hlist : s.toList ≠ [] := by
      intro he
      rw [he] at hc
      exact Option.noConfusion hc
    have hlen : (s.length == 0) = false := by
      rw [beq_eq_false_iff_ne]
      show s.toList.length ≠ 0
      intro h0
      exact hlist (List.length_eq_zero.mp h0)
    have hbne : (s.toList.head? != some 'C') = false := by
      rw [bne_eq_false_iff_eq]
      exact hc
    rw [hlen, hbne]
    simp only [Bool.or_self, Bool.false_eq_true, reduceIte]
    constructor
    · intro h
      rw [except_map_eq_error] at h
      exact absurd h (applyAccidentals_ne_keyErr _ _)
    · intro h
      exact absurd hc h
  · have hbne : (s.toList.head? != some 'C') = true := bne_iff_ne.mpr hc
    have hcond : (s.length == 0 || s.toList.head? != some 'C') = true := by
      rw [hbne, Bool.or_true]
    rw [hcond]
    simp only [reduceIte]
    simp only [Except.map]
    constructor
    · intro _
      exact hc
    · intro _
      trivial

/-- C5 counterexample: the `K` value `Cm` is not of the
`C<space><accidental-list>` form, yet construction succeeds and a Document
is produced. -/
theorem c5_counterexample :
    AbcFileInit [⟨"K", PyValue.pair "K" "Cm"⟩] []
      = .ok ⟨[⟨"K", PyValue.pair "K" "Cm"⟩], []⟩ := by decide

/-- C5 witness: a `K` value starting with a letter other than `C` raises
the key-signature error. -/
theorem c5_witness :
    AbcFileInit [⟨"K", PyValue.pair "K" "Dm"⟩] []
      = .error (.valueError keySignatureMsg) :=
  (c5_keysignature_amended "K" "Dm" []).mpr (by decide)

/-- C6, amended: for every header line matching `<letter>:<rest>`, the
resulting InformationField stores the letter uppercased as its key (`name`),
but its `value` is the **pair** of both regex groups — the letter exactly
as matched together with the raw trailing string (`match.groups(2)`) — and
not the trailing string itself, which is only the pair's second component. -/
theorem c6_information_field_amended (line : String) (c : Char) (rest : List Char)
    (h : line.toList = c :: ':' :: rest) (halpha : c.isAlpha = true)
    (hnl : '\n' ∉ rest) :
    mkInformationField line
      = some ⟨pyUpper (String.mk [c]),
              PyValue.pair (String.mk [c]) (String.mk rest)⟩ := by
  unfold mkInformationField matchInformationField
  rw [h]
  simp only [halpha, if_true]
  rw [takeWhile_ne_of_not_mem '\n' rest hnl]
  rfl

/-- C6 counterexample: parsing the header line `k:hello` stores the pair
`("k", "hello")` as the field's value, not the raw trailing string
`"hello"` (the key is nevertheless uppercased to `K`). -/
theorem c6_counterexample :
    mkInformationField "k:hello" = some ⟨"K", PyValue.pair "k" "hello"⟩
  ∧ PyValue.pair "k" "hello" ≠ PyValue.str "hello" :=
  ⟨by decide, by decide⟩

/-- C6 witness: the line `x:42` yields key `X` and value `("x", "42")`. -/
theorem c6_witness :
    mkInformationField "x:42"
      = some ⟨pyUpper (String.mk ['x']),
              PyValue.pair (String.mk ['x']) (String.mk ['4', '2'])⟩ :=
  c6_information_field_amended "x:42" 'x' ['4', '2'] rfl (by decide) (by decide)

/-- C1, amended: for a two-character accidental token, key-signature
propagation sets the accidental and recomputes the pitch value of every
Note whose **entire name**, lowercased, equals the token's letter lowercased
— i.e. only Notes without octave-shift marks; a Note whose lowered name
differs from the letter (in particular any name carrying `,` or `'`) is
left unchanged, and a Note already carrying an explicit accidental is never
overridden.  Token handling: a 2-character token `a` applies
`mark = a[0]`, `note = a[1].lower()` to every event in order. -/
theorem c1_propagation_amended (mark note : String) :
    (∀ (nm : String) (acc : Option Accidental) (dur : Nat) (v : Int),
       pyLower nm ≠ note →
       propagateNote mark note (.note nm acc dur v) = .ok (.note nm acc dur v))
  ∧ (∀ (nm : String) (a : Accidental) (dur : Nat) (v : Int),
       propagateNote mark note (.note nm (some a) dur v)
         = .ok (.note nm (some a) dur v))
  ∧ (∀ (nm : String) (dur : Nat) (v w : Int),
       pyLower nm = note →
       update_value nm (some (Accidental.ofString mark)) = .ok w →
       propagateNote mark note (.note nm none dur v)
         = .ok (.note nm (some (Accidental.ofString mark)) dur w))
  ∧ (∀ d : Nat, note ≠ "rest" → propagateNote mark note (.rest d) = .ok (.rest d))
  ∧ (∀ (m c : Char) (a : String) (music : List MusicObject),
       a.toList = [m, c] →
       applyAccidentalToken a music
         = propagateList (String.mk [m]) (pyLower (String.mk [c])) music) := by
  refine ⟨?_, ?_, ?_, ?_, ?_⟩
  · intro nm acc dur v hne
    rw [propagateNote_note]
    have hb : (pyLower nm == note) = false := beq_eq_false_iff_ne.mpr hne
    rw [hb]
    simp
  · intro nm a dur v
    rw [propagateNote_note]
    simp
  · intro nm dur v w hmatch hw
    have hcond : (pyLower nm == note && (none : Option Accidental).isNone) = true := by
      simp [hmatch]
    rw [propagateNote_note, if_pos hcond]
    show (update_value nm (some (Accidental.ofString mark))).map
        (fun x => MusicObject.note nm (some (Accidental.ofString mark)) dur x) = _
    rw [hw]
    rfl
  · intro d hne
    rw [propagateNote_rest]
    have hb : ("rest" == note) = false := beq_eq_false_iff_ne.mpr (by
      intro he
      exact hne he.symm)
    rw [hb]
    simp
  · intro m c a music ha
    have hlen : a.length = 2 := by
      show a.toList.length = 2
      rw [ha]
      rfl
    unfold applyAccidentalToken
    rw [if_neg (by rw [hlen]; exact fun hx => hx rfl)]
    rw [ha]

/-- C1 counterexample: with `K` value `C ^F` and a body consisting of the
octave-shifted, accidental-free note `F,`, propagation leaves the note
completely unchanged (its accidental stays `none` and its value stays 33),
although the claim requires every `F`-named note including octave-shifted
ones to become sharp. -/
theorem c1_counterexample :
    AbcFileInit [⟨"K", PyValue.pair "K" "C ^F"⟩] [.note "F," none 1 33]
      = .ok ⟨[⟨"K", PyValue.pair "K" "C ^F"⟩], [.note "F," none 1 33]⟩ := by decide

/-- C1 witness: applying the token `^F`'s pieces, the bare note `F` becomes
sharp with value 46 while the octave-shifted `F,` is untouched. -/
theorem c1_witness :
    propagateNote "^" "f" (.note "F" none 1 45)
      = .ok (.note "F" (some (Accidental.ofString "^")) 1 46)
  ∧ propagateNote "^" "f" (.note "F," none 1 33) = .ok (.note "F," none 1 33) := by
  constructor
  · exact (c1_propagation_amended "^" "f").2.2.1 "F" 1 45 46 (by decide) (by decide)
  · exact (c1_propagation_amended "^" "f").1 "F," none 1 33 (by decide)

/-- C8: header validation raises an error naming the violated rule when the
header has fewer than 3 fields, or its first field's key is not `X` or its
second is not `T`, or its last field's key is not `K`; a header of exactly
`X:`, `T:`, `K:` fields passes. -/
lemma validateHeader_cons3 (f0 f1 f2 : InformationField) (rest : List InformationField) :
    validateHeader (f0 :: f1 :: f2 :: rest)
      = if f0.name != "X" || f1.name != "T" then
          .error (.valueError "Tune header must begin with X: followed by T:")
        else if (rest.getLastD f2).name != "K" then
          .error (.valueError "Tune header must end with K:")
        else .ok () := rfl

theorem c8_header_validation :
    (∀ fields : List InformationField, fields.length < 3 →
       validateHeader fields
         = .error (.valueError "Tune header must contain at least X:, T:, and K:"))
  ∧ (∀ (f0 f1 f2 : InformationField) (rest : List InformationField),
       f0.name ≠ "X" ∨ f1.name ≠ "T" →
       validateHeader (f0 :: f1 :: f2 :: rest)
         = .error (.valueError "Tune header must begin with X: followed by T:"))
  ∧ (∀ (f0 f1 f2 : InformationField) (rest : List InformationField),
       f0.name = "X" → f1.name = "T" → (rest.getLastD f2).name ≠ "K" →
       validateHeader (f0 :: f1 :: f2 :: rest)
         = .error (.valueError "Tune header must end with K:"))
  ∧ (∀ (f0 f1 f2 : InformationField) (rest : List InformationField),
       f0.name = "X" → f1.name = "T" → (rest.getLastD f2).name = "K" →
       validateHeader (f0 :: f1 :: f2 :: rest) = .ok ()) := by
  refine ⟨?_, ?_, ?_, ?_⟩
  · intro fields hlen
    match fields with
    | [] => rfl
    | [_] => rfl
    | [_, _] => rfl
    | _ :: _ :: _ :: _ => simp at hlen; omega
  · intro f0 f1 f2 rest hbad
    rw [validateHeader_cons3]
    have hcond : (f0.name != "X" || f1.name != "T") = true := by
      rcases hbad with h | h
      · rw [bne_iff_ne.mpr h]
        rfl
      · rw [bne_iff_ne.mpr h, Bool.or_true]
    rw [if_pos hcond]
  · intro f0 f1 f2 rest h0 h1 hk
    rw [validateHeader_cons3]
    have hcond : (f0.name != "X" || f1.name != "T") = false := by
      rw [bne_eq_false_iff_eq.mpr h0, bne_eq_false_iff_eq.mpr h1]
      rfl
    rw [if_neg (by rw [hcond]; exact Bool.false_ne_true)]
    rw [if_pos (bne_iff_ne.mpr hk)]
  · intro f0 f1 f2 rest h0 h1 hk
    rw [validateHeader_cons3]
    have hcond : (f0.name != "X" || f1.name != "T") = false := by
      rw [bne_eq_false_iff_eq.mpr h0, bne_eq_false_iff_eq.mpr h1]
      rfl
    rw [if_neg (by rw [hcond]; exact Bool.false_ne_true)]
    rw [if_neg (by rw [bne_eq_false_iff_eq.mpr hk]; exact Bool.false_ne_true)]

/-- C8 witness: `X:1, T:Tune, K:C` passes; a first field other than `X`
raises the begin error; a 1-field header raises the too-short error. -/
theorem c8_witness :
    validateHeader [⟨"X", .str "1"⟩, ⟨"T", .str "Tune"⟩, ⟨"K", .str "C"⟩] = .ok ()
  ∧ validateHeader [⟨"T", .str "x"⟩, ⟨"X", .str "y"⟩, ⟨"K", .str "C"⟩]
      = .error (.valueError "Tune header must begin with X: followed by T:")
  ∧ validateHeader [⟨"X", .str "1"⟩]
      = .error (.valueError "Tune header must contain at least X:, T:, and K:") := by
  refine ⟨?_, ?_, ?_⟩
  · exact c8_header_validation.2.2.2 ⟨"X", .str "1"⟩ ⟨"T", .str "Tune"⟩ ⟨"K", .str "C"⟩ []
      rfl rfl (by decide)
  · exact c8_header_validation.2.1 ⟨"T", .str "x"⟩ ⟨"X", .str "y"⟩ ⟨"K", .str "C"⟩ []
      (Or.inl (by decide))
  · exact c8_header_validation.1 [⟨"X", .str "1"⟩] (by decide)

/-- C9: `Note.__eq__` and `Note.__lt__` depend only on the stored pitch
values — equality holds iff the values are equal and less-than iff the
first value is smaller, regardless of names or accidentals, so enharmonic
Notes with different spellings compare equal. -/
theorem c9_enharmonic_order (m1 m2 : MusicObject) (v1 v2 : Int)
    (h1 : m1.valueAttr = .ok v1) (h2 : m2.valueAttr = .ok v2) :
    note_eq m1 m2 = .ok (v1 == v2)
  ∧ note_lt m1 m2 = .ok (decide (v1 < v2))
  ∧ (note_eq m1 m2 = .ok true ↔ v1 = v2)
  ∧ (note_lt m1 m2 = .ok true ↔ v1 < v2) := by
  cases m1 with
  | rest d => simp [MusicObject.valueAttr] at h1
  | note nm1 a1 d1 w1 =>
    cases m2 with
    | rest d => simp [MusicObject.valueAttr] at h2
    | note nm2 a2 d2 w2 =>
      simp only [MusicObject.valueAttr, Except.ok.injEq] at h1 h2
      subst h1
      subst h2
      refine ⟨rfl, rfl, ?_, ?_⟩
      · simp [note_eq, MusicObject.valueAttr]
      · simp [note_lt, MusicObject.valueAttr]

/-- C9 witness: `F♯` (value 46) and `G♭` (value 46) are enharmonically
equal: `note_eq` returns `true` although names and accidentals differ. -/
theorem c9_witness :
    NoteInit "F" (some (Accidental.ofString "^")) ""
      = .ok (.note "F" (some (Accidental.ofString "^")) 1 46)
  ∧ NoteInit "G" (some (Accidental.ofString "_")) ""
      = .ok (.note "G" (some (Accidental.ofString "_")) 1 46)
  ∧ note_eq (.note "F" (some (Accidental.ofString "^")) 1 46)
      (.note "G" (some (Accidental.ofString "_")) 1 46) = .ok true := by
  refine ⟨by decide, by decide, ?_⟩
  exact (c9_enharmonic_order (.note "F" (some (Accidental.ofString "^")) 1 46)
    (.note "G" (some (Accidental.ofString "_")) 1 46) 46 46 rfl rfl).2.2.1.mpr rfl

/-- C10: constructing an `Accidental` from any string other than `^`, `=`
or `_` leaves its semitone-delta attribute unassigned; the tokenizer
captures a run of accidental marks as one multi-character group (e.g.
`^^C`), and building the Note then fails with the `AttributeError` of the
missing `value` attribute, as does the whole parse of `^^C`. -/
theorem c10_multichar_accidental :
    (∀ s : String, s ≠ "_" → s ≠ "^" → s ≠ "=" → (Accidental.ofString s).value = none)
  ∧ (∀ (accs nm dur : String) (cstart cend tie : Bool) (c : Char) (tl : List Char)
       (d : Nat),
       2 ≤ accs.length →
       (pyLower nm == "z" || pyLower nm == "x") = false →
       nm.toList = c :: tl → c ∈ base_notes →
       musicDuration dur = .ok d →
       mkEvent ⟨cstart, accs, nm, dur, cend, tie⟩
         = .error (.attributeError "Accidental object has no attribute value"))
  ∧ tokenize "^^C" = [⟨false, "^^", "C", "", false, false⟩]
  ∧ parseMusicContent "^^C"
      = .error (.attributeError "Accidental object has no attribute value") := by
  have hofs : ∀ s : String, s ≠ "_" → s ≠ "^" → s ≠ "=" →
      (Accidental.ofString s).value = none := by
    intro s h1 h2 h3
    unfold Accidental.ofString
    simp [h1, h2, h3]
  refine ⟨hofs, ?_, by decide, by decide⟩
  intro accs nm dur cstart cend tie c tl d hlen hz hnm hc hdur
  unfold mkEvent
  rw [if_neg (by rw [hz]; exact Bool.false_ne_true)]
  rw [NoteInit_durOk _ _ _ d hdur]
  show (match update_value nm
      (if accs.length > 0 then some (Accidental.ofString accs) else none) with
    | .error e => Except.error e
    | .ok v => Except.ok (MusicObject.note nm
        (if accs.length > 0 then some (Accidental.ofString accs) else none) d v)) = _
  have hval : (Accidental.ofString accs).value = none := by
    refine hofs accs ?_ ?_ ?_ <;>
      (intro he; rw [he] at hlen; exact absurd hlen (by decide))
  have hupd : update_value nm
      (if accs.length > 0 then some (Accidental.ofString accs) else none)
      = .error (.attributeError "Accidental object has no attribute value") := by
    rw [update_value_cons _ _ c tl hnm]
    obtain ⟨b, hb⟩ := baseValue_ok_of_mem hc
    rw [hb]
    show addAccidental (octaveAdjust b tl)
        (if accs.length > 0 then some (Accidental.ofString accs) else none) = _
    rw [show (if accs.length > 0 then some (Accidental.ofString accs) else none)
        = some (Accidental.ofString accs) from if_pos (by omega)]
    show (match (Accidental.ofString accs).value with
          | some d => Except.ok (octaveAdjust b tl + d)
          | none =>
            Except.error (PyErr.attributeError "Accidental object has no attribute value")) = _
    rw [hval]
  rw [hupd]

/-- C10 witness: `Accidental("^^")` has no delta, and the tokenized note
`^^C` fails to build with the `AttributeError`. -/
theorem c10_witness :
    (Accidental.ofString "^^").value = none
  ∧ mkEvent ⟨false, "^^", "C", "", false, false⟩
      = .error (.attributeError "Accidental object has no attribute value") := by
  constructor
  · exact c10_multichar_accidental.1 "^^" (by decide) (by decide) (by decide)
  · exact c10_multichar_accidental.2.1 "^^" "C" "" false false false 'C' [] 1
      (by decide) (by decide) rfl (by decide) (by decide)

end MusicTools
